import Mathlib

/-!
Shallow embedding of the blob-memory / tracking-update engine of
`falco-home-security` (file `plugin/detect.go`), together with theorems that
settle the specification claims about it.

Modelling conventions:
* Go `float64` confidences and thresholds are modelled as `ℚ`.  Division of
  rationals by zero yields `0` in Lean; the Go code produces `NaN` (or `±Inf`)
  there, and every comparison `NaN > t` is false, which agrees with `0 > t`
  for the non-negative thresholds the claims are stated over.
* Go `int` values are modelled as `Int`, and Go's truncating integer division
  is `Int.tdiv`.
* Go's `map[int]bool` "already merged" set is modelled as a `List Nat` of the
  indices stored with value `true`; absent keys read as `false`.
* Indexing into the blob slice can panic in Go, so the merging step returns
  an `Option`; a `none` result marks an out-of-range access.
-/

namespace HomeSecurity

/-- Type `CategoryID` from `detect.go` (COCO super-categories plus `Unknown`). -/
inductive CategoryID where
  | Unknown
  | Human
  | Vehicle
  | Outdoor
  | Animal
  | Accessory
  | Sports
  | Kitchen
  | Food
  | Furniture
  | Electronic
  | Appliance
  | Indoor
deriving DecidableEq, Repr

/-- Structure `categoryRange` from `detect.go`; the Go field `end` is spelled `last`
here because `end` is a Lean keyword. -/
structure categoryRange where
  start : Int
  last : Int
deriving DecidableEq, Repr

/-- The `categoryRanges` table of `detect.go`, as an association list.  The Go
source stores it in a `map[CategoryID]categoryRange`; iteration order over a
Go map is unspecified, so theorems about `ParseClassID` quantify over
permutations of this list. -/
def categoryRanges : List (CategoryID × categoryRange) :=
  [(CategoryID.Human, ⟨1, 1⟩),
   (CategoryID.Vehicle, ⟨2, 9⟩),
   (CategoryID.Outdoor, ⟨10, 15⟩),
   (CategoryID.Animal, ⟨16, 25⟩),
   (CategoryID.Accessory, ⟨26, 33⟩),
   (CategoryID.Sports, ⟨34, 43⟩),
   (CategoryID.Kitchen, ⟨44, 51⟩),
   (CategoryID.Food, ⟨52, 61⟩),
   (CategoryID.Furniture, ⟨62, 71⟩),
   (CategoryID.Electronic, ⟨72, 77⟩),
   (CategoryID.Appliance, ⟨78, 83⟩),
   (CategoryID.Indoor, ⟨84, 91⟩)]

/-- The range-membership test `r.start <= classId && classId <= r.end` from
`ParseClassID`. -/
def inRange (r : categoryRange) (classId : Int) : Bool :=
  r.start ≤ classId && classId ≤ r.last

/-- Function `ParseClassID` evaluated over one particular iteration order of the
`categoryRanges` map: return the first category whose range contains the id,
`Unknown` if none does. -/
def parseClassIDOn (l : List (CategoryID × categoryRange)) (classId : Int) :
    CategoryID :=
  match l with
  | [] => CategoryID.Unknown
  | p :: rest =>
    if inRange p.2 classId then p.1 else parseClassIDOn rest classId

/-- Function `ParseClassID` from `detect.go`, evaluated over the canonical listing
order of the table. -/
def ParseClassID (classId : Int) : CategoryID :=
  parseClassIDOn categoryRanges classId

/-- Structure `BlobPosition` from `detect.go`. -/
structure BlobPosition where
  Left : Int
  Top : Int
  Right : Int
  Bottom : Int
deriving DecidableEq, Repr

/-- Structure `BlobPoint` from `detect.go`. -/
structure BlobPoint where
  x : Int
  y : Int
deriving DecidableEq, Repr

/-- Structure `Blob` from `detect.go`. -/
structure Blob where
  Category : CategoryID
  Confidence : ℚ
  Position : BlobPosition
deriving DecidableEq, Repr

/-- Method `BlobPosition.Center` from `detect.go`: the box's self-relative half
extents `((Right-Left)/2, (Bottom-Top)/2)` with Go's truncating division;
the box's absolute offset is discarded. -/
def BlobPosition.Center (b : BlobPosition) : BlobPoint :=
  ⟨(b.Right - b.Left).tdiv 2, (b.Bottom - b.Top).tdiv 2⟩

/-- Method `BlobPoint.Near` from `detect.go`:
`(min x1 x2 / max x1 x2) * (min y1 y2 / max y1 y2)`.  The Go code divides
without a zero guard; here a zero divisor yields `0`, which compares against
a non-negative threshold exactly as Go's `NaN` does. -/
def BlobPoint.Near (b other : BlobPoint) : ℚ :=
  ((min b.x other.x : Int) : ℚ) / ((max b.x other.x : Int) : ℚ) *
    (((min b.y other.y : Int) : ℚ) / ((max b.y other.y : Int) : ℚ))

/-- The nearness score `findNearestIndex` actually computes for a stored blob
`b`: in the Go loop `for i, blob := range b.blobs` the loop variable `blob`
shadows the function's `blob` parameter, so both sides of the `Near` call are
the stored blob's own center. -/
def selfNearness (b : Blob) : ℚ :=
  b.Position.Center.Near b.Position.Center

/-- The loop of `findNearestIndex` over the remaining stored blobs, carrying
the running index `i`, `maxNearness` and `maxIndex`.  Faithful to the source,
shadowing bug included: the score of candidate `b` is `selfNearness b` and
does not depend on the incoming observation. -/
def findNearestIndexAux (merged : List Nat) (thr : ℚ) :
    List Blob → Nat → ℚ → Int → Int
  | [], _, _, maxIndex => maxIndex
  | b :: rest, i, maxNearness, maxIndex =>
    if merged.contains i = false ∧ thr < selfNearness b ∧
        maxNearness < selfNearness b then
      findNearestIndexAux merged thr rest (i + 1) (selfNearness b) (i : Int)
    else
      findNearestIndexAux merged thr rest (i + 1) maxNearness maxIndex

/-- Function `findNearestIndex` from `detect.go`.  The `blob` parameter is shadowed by
the loop variable in the source and therefore unused, exactly as in the code. -/
def findNearestIndex (blobs : List Blob) (_blob : Blob) (merged : List Nat)
    (blobFindNearestThreshold : ℚ) : Int :=
  findNearestIndexAux merged blobFindNearestThreshold blobs 0 0 (-1)

/-- The update `mergeAtIndex` performs on the blob stored at the matched
index: confidence/category override when the incoming confidence reaches the
stored confidence plus the class-switch threshold (boundary inclusive), then
unconditional coordinate averaging with truncating division.  Returns the
merged blob together with the `changed` flag (override fired and the category
actually differs). -/
def mergeBlob (cur blob : Blob) (blobMergeConfidenceThreshold : ℚ) :
    Blob × Bool :=
  let override := cur.Confidence + blobMergeConfidenceThreshold ≤ blob.Confidence
  let changed := override ∧ cur.Category ≠ blob.Category
  let category := if override then blob.Category else cur.Category
  let confidence := if override then blob.Confidence else cur.Confidence
  let pos : BlobPosition :=
    { Left := (cur.Position.Left + blob.Position.Left).tdiv 2
      Top := (cur.Position.Top + blob.Position.Top).tdiv 2
      Right := (cur.Position.Right + blob.Position.Right).tdiv 2
      Bottom := (cur.Position.Bottom + blob.Position.Bottom).tdiv 2 }
  (⟨category, confidence, pos⟩, decide changed)

/-- Function `mergeAtIndex` from `detect.go`.  Go indexes `b.blobs[index]` directly and
would panic out of range; the embedding returns `none` there. -/
def mergeAtIndex (blobs : List Blob) (blob : Blob) (index : Nat)
    (blobMergeConfidenceThreshold : ℚ) : Option (List Blob × Bool) :=
  match blobs[index]? with
  | none => none
  | some cur =>
    let m := mergeBlob cur blob blobMergeConfidenceThreshold
    some (blobs.set index m.1, m.2)

/-- Function `refreshConfidence` from `detect.go`: multiply every confidence by the
decay factor and keep only the blobs whose decayed confidence is strictly
above the eviction floor. -/
def refreshConfidence (decayFactor evictionFloor : ℚ) (blobs : List Blob) :
    List Blob :=
  blobs.filterMap fun blob =>
    let c := blob.Confidence * decayFactor
    if evictionFloor < c then some { blob with Confidence := c } else none

/-- Structure `DetectionConfig` from `main.go`, restricted to the fields the tracking
core reads. -/
structure DetectionConfig where
  MinConfidence : ℚ
  MemoryMinConfidence : ℚ
  MemoryDecayFactor : ℚ
  MemoryNearnessThreshold : ℚ
  MemoryClassSwitchThreshold : ℚ
  MemoryCollapseMultiple : Bool
deriving DecidableEq, Repr

/-- The default configuration installed by `Init` in `plugin.go` and by
`main` in `main.go`: 0.75, 0.5, 0.98, 0.65, 0.15, true. -/
def defaultConfig : DetectionConfig :=
  { MinConfidence := 3/4
    MemoryMinConfidence := 1/2
    MemoryDecayFactor := 49/50
    MemoryNearnessThreshold := 13/20
    MemoryClassSwitchThreshold := 3/20
    MemoryCollapseMultiple := true }

/-- The state threaded through `Update`'s per-observation loop: the blob
store, the per-cycle merged-index set and the `changed` flag. -/
structure UpdateState where
  blobs : List Blob
  merged : List Nat
  changed : Bool
deriving DecidableEq, Repr

/-- One iteration of `Update`'s loop body for a single incoming observation. -/
def updateStep (cfg : DetectionConfig) (st : UpdateState) (blob : Blob) :
    Option UpdateState :=
  let nearestIndex :=
    findNearestIndex st.blobs blob st.merged cfg.MemoryNearnessThreshold
  if nearestIndex < 0 then
    some { st with blobs := st.blobs ++ [blob], changed := true }
  else
    match mergeAtIndex st.blobs blob nearestIndex.toNat
        cfg.MemoryClassSwitchThreshold with
    | none => none
    | some m =>
      some { blobs := m.1
             merged :=
               if cfg.MemoryCollapseMultiple = false then
                 nearestIndex.toNat :: st.merged
               else st.merged
             changed := st.changed || m.2 }

/-- Loop of `Update` over the incoming observation batch. -/
def updateLoop (cfg : DetectionConfig) :
    UpdateState → List Blob → Option UpdateState
  | st, [] => some st
  | st, blob :: rest =>
    match updateStep cfg st blob with
    | none => none
    | some st' => updateLoop cfg st' rest

/-- Function `Update` from `detect.go`: decay-and-evict first, then associate and merge
each observation in order; returns the new store and the `changed` flag. -/
def Update (blobs : List Blob) (obs : List Blob) (cfg : DetectionConfig) :
    Option (List Blob × Bool) :=
  match updateLoop cfg
      ⟨refreshConfidence cfg.MemoryDecayFactor cfg.MemoryMinConfidence blobs,
       [], false⟩ obs with
  | none => none
  | some st => some (st.blobs, st.changed)

/-- Modelled from the spec (association rule of §4.2, for comparison with the
source's `findNearestIndexAux`): the score of a candidate is the nearness
between the incoming observation's box center and the candidate's box center. -/
def findNearestIndexSpecAux (obsCenter : BlobPoint) (merged : List Nat)
    (thr : ℚ) : List Blob → Nat → ℚ → Int → Int
  | [], _, _, maxIndex => maxIndex
  | b :: rest, i, maxNearness, maxIndex =>
    let nearness := obsCenter.Near b.Position.Center
    if merged.contains i = false ∧ thr < nearness ∧ maxNearness < nearness then
      findNearestIndexSpecAux obsCenter merged thr rest (i + 1) nearness (i : Int)
    else
      findNearestIndexSpecAux obsCenter merged thr rest (i + 1) maxNearness
        maxIndex

/-- Modelled from the spec: the intended `findNearestIndex`, scoring each
candidate against the incoming observation instead of against itself. -/
def findNearestIndexSpec (blobs : List Blob) (blob : Blob) (merged : List Nat)
    (thr : ℚ) : Int :=
  findNearestIndexSpecAux blob.Position.Center merged thr blobs 0 0 (-1)

/-- The default configuration with `memoryCollapseMultiple` disabled. -/
def configNoCollapse : DetectionConfig :=
  { defaultConfig with MemoryCollapseMultiple := false }

/-- A degenerate stored entity: box `(0,0,1,100)` has width `1`, so its
self-relative center is `(0,50)`. -/
def entityThin : Blob :=
  ⟨CategoryID.Human, 9/10, ⟨0, 0, 1, 100⟩⟩

/-- Whether processing one observation produces a reportable event: the
observation is appended as a new entity, or its merge overrides the matched
entity's category with a different value. -/
def stepEvent (cfg : DetectionConfig) (st : UpdateState) (blob : Blob) : Bool :=
  let nearestIndex :=
    findNearestIndex st.blobs blob st.merged cfg.MemoryNearnessThreshold
  if nearestIndex < 0 then true
  else
    match st.blobs[nearestIndex.toNat]? with
    | none => false
    | some cur =>
      decide (cur.Confidence + cfg.MemoryClassSwitchThreshold ≤
          blob.Confidence) &&
        decide (cur.Category ≠ blob.Category)

/-- The sequence of per-observation event flags along one run of `Update`'s
loop. -/
def eventTrace (cfg : DetectionConfig) :
    UpdateState → List Blob → List Bool
  | _, [] => []
  | st, blob :: rest =>
    stepEvent cfg st blob ::
      (match updateStep cfg st blob with
       | none => []
       | some st' => eventTrace cfg st' rest)

/-- First observation of the end-to-end scenario in §8 of the spec:
`{Human, conf = 0.80, box = (0,0,100,100)}`. -/
def obsCycle1 : Blob :=
  ⟨CategoryID.Human, 4/5, ⟨0, 0, 100, 100⟩⟩

/-- Second observation of the end-to-end scenario in §8 of the spec:
`{Human, conf = 0.82, box = (5,5,105,105)}`. -/
def obsCycle2 : Blob :=
  ⟨CategoryID.Human, 41/50, ⟨5, 5, 105, 105⟩⟩

/-- Expected sole stored entity after the second end-to-end cycle: confidence
decayed to `0.784`, box averaged to `(2,2,102,102)`. -/
def entityAfterCycle2 : Blob :=
  ⟨CategoryID.Human, 98/125, ⟨2, 2, 102, 102⟩⟩

/-- Stored entity used to exhibit the association divergence: box
`(0,0,10,10)`, hence self-relative center `(5,5)`. -/
def entitySmall : Blob :=
  ⟨CategoryID.Human, 9/10, ⟨0, 0, 10, 10⟩⟩

/-- State of `entitySmall` after one decay step with the default factor. -/
def entitySmallDecayed : Blob :=
  ⟨CategoryID.Human, 441/500, ⟨0, 0, 10, 10⟩⟩

/-- Observation far from `entitySmall`: box `(0,0,1000,1000)`, self-relative
center `(500,500)`. -/
def obsFar : Blob :=
  ⟨CategoryID.Human, 4/5, ⟨0, 0, 1000, 1000⟩⟩

/-- Observation whose confidence `0.1` sits below the default eviction floor
`0.5`. -/
def obsLowConfidence : Blob :=
  ⟨CategoryID.Human, 1/10, ⟨0, 0, 10, 10⟩⟩

/-- Either the loop of `findNearestIndex` leaves the running best index
unchanged, or it returns the position of a stored blob whose (self-)nearness
score strictly exceeds the threshold. -/
theorem findNearestIndexAux_cases (merged : List Nat) (thr : ℚ)
    (rest : List Blob) :
    ∀ (i : Nat) (maxN : ℚ) (maxIdx : Int),
      findNearestIndexAux merged thr rest i maxN maxIdx = maxIdx ∨
      ∃ j b, rest[j]? = some b ∧
        findNearestIndexAux merged thr rest i maxN maxIdx = ((i + j : Nat) : Int) ∧
        thr < selfNearness b := by
  induction rest with
  | nil => intro i maxN maxIdx; left; rfl
  | cons b rest ih =>
    intro i maxN maxIdx
    rw [findNearestIndexAux]
    split
    · next h =>
      rcases ih (i + 1) (selfNearness b) (i : Int) with h1 | ⟨j, b', hj, he, hb⟩
      · right
        exact ⟨0, b, by simp, by simpa using h1, h.2.1⟩
      · right
        refine ⟨j + 1, b', by simpa using hj, ?_, hb⟩
        rw [he]
        congr 1
        omega
    · next h =>
      rcases ih (i + 1) maxN maxIdx with h1 | ⟨j, b', hj, he, hb⟩
      · left; exact h1
      · right
        refine ⟨j + 1, b', by simpa using hj, ?_, hb⟩
        rw [he]
        congr 1
        omega

/-- Result of `findNearestIndex`: either `-1`, or the index of a stored blob
whose score strictly exceeds the threshold. -/
theorem findNearestIndex_cases (blobs : List Blob) (blob : Blob)
    (merged : List Nat) (thr : ℚ) :
    findNearestIndex blobs blob merged thr = -1 ∨
    ∃ (j : Nat) (b : Blob), blobs[j]? = some b ∧
      findNearestIndex blobs blob merged thr = (j : Int) ∧
      thr < selfNearness b := by
  simpa [findNearestIndex] using
    findNearestIndexAux_cases merged thr blobs 0 0 (-1)

/-- Function `findNearestIndex` returns `-1` or an index within the bounds of
the store. -/
theorem findNearestIndex_bound (blobs : List Blob) (blob : Blob)
    (merged : List Nat) (thr : ℚ) :
    findNearestIndex blobs blob merged thr = -1 ∨
    (0 ≤ findNearestIndex blobs blob merged thr ∧
      findNearestIndex blobs blob merged thr < (blobs.length : Int)) := by
  rcases findNearestIndex_cases blobs blob merged thr with h | ⟨j, b, hj, he, _⟩
  · left; exact h
  · right
    obtain ⟨hlt, -⟩ := List.getElem?_eq_some.mp hj
    constructor
    · rw [he]; exact Int.natCast_nonneg j
    · rw [he]; exact_mod_cast hlt

/-- One iteration of `Update`'s loop never fails: the merge branch is only
taken with an in-range index. -/
theorem updateStep_some (cfg : DetectionConfig) (st : UpdateState)
    (blob : Blob) : ∃ st', updateStep cfg st blob = some st' := by
  rw [updateStep]
  split
  · exact ⟨_, rfl⟩
  · next hneg =>
    rcases findNearestIndex_cases st.blobs blob st.merged
        cfg.MemoryNearnessThreshold with h | ⟨j, b, hj, he, -⟩
    · exact absurd (h ▸ (by decide : (-1 : Int) < 0)) hneg
    · rw [he, Int.toNat_natCast]
      simp only [mergeAtIndex, hj]
      exact ⟨_, rfl⟩

/-- Loop of `Update` never fails. -/
theorem updateLoop_some (cfg : DetectionConfig) (obs : List Blob) :
    ∀ st : UpdateState, ∃ st', updateLoop cfg st obs = some st' := by
  induction obs with
  | nil => intro st; exact ⟨st, rfl⟩
  | cons blob rest ih =>
    intro st
    obtain ⟨st₁, h₁⟩ := updateStep_some cfg st blob
    obtain ⟨st', h'⟩ := ih st₁
    exact ⟨st', by rw [updateLoop, h₁]; exact h'⟩

/-- Function `Update` never fails: every store access during an update call
is within bounds. -/
theorem update_some (blobs obs : List Blob) (cfg : DetectionConfig) :
    ∃ res, Update blobs obs cfg = some res := by
  obtain ⟨st', h⟩ := updateLoop_some cfg obs
    ⟨refreshConfidence cfg.MemoryDecayFactor cfg.MemoryMinConfidence blobs,
     [], false⟩
  exact ⟨(st'.blobs, st'.changed), by rw [Update, h]⟩

/-- One loop iteration ORs exactly its event flag into `changed`. -/
theorem updateStep_changed (cfg : DetectionConfig) (st : UpdateState)
    (blob : Blob) (st' : UpdateState)
    (h : updateStep cfg st blob = some st') :
    st'.changed = (st.changed || stepEvent cfg st blob) := by
  rw [updateStep] at h
  rw [stepEvent]
  split at h
  · next hneg =>
    rw [if_pos hneg]
    cases h
    simp
  · next hneg =>
    rw [if_neg hneg]
    cases hm : mergeAtIndex st.blobs blob
        (findNearestIndex st.blobs blob st.merged
          cfg.MemoryNearnessThreshold).toNat
        cfg.MemoryClassSwitchThreshold with
    | none => rw [hm] at h; cases h
    | some m =>
      rw [hm] at h
      cases h
      rw [mergeAtIndex] at hm
      cases hget : st.blobs[(findNearestIndex st.blobs blob st.merged
          cfg.MemoryNearnessThreshold).toNat]? with
      | none => rw [hget] at hm; cases hm
      | some cur =>
        rw [hget] at hm
        cases hm
        simp [mergeBlob, Bool.decide_and]

/-- The final `changed` flag is the initial one ORed with the event flags of
every loop iteration. -/
theorem updateLoop_changed (cfg : DetectionConfig) (obs : List Blob) :
    ∀ st st' : UpdateState, updateLoop cfg st obs = some st' →
      st'.changed = (st.changed || (eventTrace cfg st obs).any id) := by
  induction obs with
  | nil =>
    intro st st' h
    cases h
    simp [eventTrace]
  | cons blob rest ih =>
    intro st st' h
    rw [updateLoop] at h
    cases h₁ : updateStep cfg st blob with
    | none => rw [h₁] at h; cases h
    | some st₁ =>
      rw [h₁] at h
      rw [eventTrace, h₁, ih st₁ st' h, updateStep_changed cfg st blob st₁ h₁]
      simp [Bool.or_assoc]

/-- Every blob surviving `refreshConfidence` has confidence strictly above
the eviction floor. -/
theorem refreshConfidence_mem (decayFactor evictionFloor : ℚ)
    (blobs : List Blob) (b : Blob)
    (h : b ∈ refreshConfidence decayFactor evictionFloor blobs) :
    evictionFloor < b.Confidence := by
  rw [refreshConfidence] at h
  obtain ⟨a, -, ha⟩ := List.mem_filterMap.mp h
  by_cases hc : evictionFloor < a.Confidence * decayFactor
  · rw [if_pos hc] at ha
    cases ha
    exact hc
  · rw [if_neg hc] at ha
    cases ha

/-- The per-observation loop preserves the confidence floor provided every
incoming observation is above the floor. -/
theorem updateLoop_conf (cfg : DetectionConfig) (obs : List Blob)
    (hobs : ∀ o ∈ obs, cfg.MemoryMinConfidence < o.Confidence) :
    ∀ st st' : UpdateState,
      (∀ b ∈ st.blobs, cfg.MemoryMinConfidence < b.Confidence) →
      updateLoop cfg st obs = some st' →
      ∀ b ∈ st'.blobs, cfg.MemoryMinConfidence < b.Confidence := by
  induction obs with
  | nil =>
    intro st st' hst h
    cases h
    exact hst
  | cons blob rest ih =>
    intro st st' hst h
    rw [updateLoop] at h
    cases h₁ : updateStep cfg st blob with
    | none => rw [h₁] at h; cases h
    | some st₁ =>
      rw [h₁] at h
      refine ih (fun o ho => hobs o (List.mem_cons_of_mem _ ho)) st₁ st' ?_ h
      intro b hb
      rw [updateStep] at h₁
      split at h₁
      · cases h₁
        rcases List.mem_append.mp hb with hb | hb
        · exact hst b hb
        · rw [List.mem_singleton.mp hb]
          exact hobs blob (List.mem_cons_self _ _)
      · cases hm : mergeAtIndex st.blobs blob
            (findNearestIndex st.blobs blob st.merged
              cfg.MemoryNearnessThreshold).toNat
            cfg.MemoryClassSwitchThreshold with
        | none => rw [hm] at h₁; cases h₁
        | some m =>
          rw [hm] at h₁
          cases h₁
          rw [mergeAtIndex] at hm
          cases hget : st.blobs[(findNearestIndex st.blobs blob st.merged
              cfg.MemoryNearnessThreshold).toNat]? with
          | none => rw [hget] at hm; cases hm
          | some cur =>
            rw [hget] at hm
            cases hm
            rcases List.mem_or_eq_of_mem_set hb with hb | hb
            · exact hst b hb
            · have hcur : cur ∈ st.blobs := by
                obtain ⟨hlt, hel⟩ := List.getElem?_eq_some.mp hget
                exact hel ▸ List.getElem_mem hlt
              rw [hb, mergeBlob]
              dsimp only
              split
              · exact hobs blob (List.mem_cons_self _ _)
              · exact hst cur hcur

/-- Two table entries own disjoint id ranges. -/
def rangesDisjoint (p q : CategoryID × categoryRange) : Prop :=
  p.2.last < q.2.start ∨ q.2.last < p.2.start

instance (p q : CategoryID × categoryRange) : Decidable (rangesDisjoint p q) :=
  inferInstanceAs (Decidable (_ ∨ _))

/-- No id lies in two disjoint ranges. -/
theorem not_both_inRange {p q : CategoryID × categoryRange}
    (h : rangesDisjoint p q) (classId : Int) (h1 : inRange p.2 classId = true)
    (h2 : inRange q.2 classId = true) : False := by
  rw [inRange, Bool.and_eq_true, decide_eq_true_eq, decide_eq_true_eq] at h1 h2
  rcases h with h | h <;> omega

/-- The configured ranges are pairwise disjoint. -/
theorem categoryRanges_pairwise : categoryRanges.Pairwise rangesDisjoint := by
  decide

/-- In a pairwise-disjoint table, at most one entry can contain a given id. -/
theorem ranges_mem_unique :
    ∀ {l : List (CategoryID × categoryRange)}, l.Pairwise rangesDisjoint →
      ∀ {p q : CategoryID × categoryRange}, p ∈ l → q ∈ l → ∀ {classId : Int},
        inRange p.2 classId = true → inRange q.2 classId = true → p = q := by
  intro l
  induction l with
  | nil => intro _ p q hmp; cases hmp
  | cons a t ih =>
    intro hp p q hmp hmq classId h1 h2
    rw [List.pairwise_cons] at hp
    rcases List.mem_cons.mp hmp with rfl | hmp' <;>
      rcases List.mem_cons.mp hmq with rfl | hmq'
    · rfl
    · exact absurd (not_both_inRange (hp.1 q hmq') classId h1 h2) not_false
    · exact absurd (not_both_inRange (hp.1 p hmp') classId h2 h1) not_false
    · exact ih hp.2 hmp' hmq' h1 h2

/-- In a pairwise-disjoint table, the first-match lookup returns the owner of
any entry containing the id. -/
theorem parseClassIDOn_owner :
    ∀ {l : List (CategoryID × categoryRange)}, l.Pairwise rangesDisjoint →
      ∀ {p : CategoryID × categoryRange}, p ∈ l → ∀ {classId : Int},
        inRange p.2 classId = true → parseClassIDOn l classId = p.1 := by
  intro l
  induction l with
  | nil => intro _ p hmp; cases hmp
  | cons a t ih =>
    intro hp p hmp classId h1
    rw [List.pairwise_cons] at hp
    rw [parseClassIDOn]
    split
    · next ha =>
      rcases List.mem_cons.mp hmp with rfl | hmp'
      · rfl
      · exact absurd (not_both_inRange (hp.1 p hmp') classId ha h1) not_false
    · next ha =>
      rcases List.mem_cons.mp hmp with rfl | hmp'
      · exact absurd h1 ha
      · exact ih hp.2 hmp' h1

/-- If no entry contains the id, the first-match lookup returns `Unknown`. -/
theorem parseClassIDOn_unknown :
    ∀ {l : List (CategoryID × categoryRange)},
      (∀ p ∈ l, inRange p.2 classId = false) →
      parseClassIDOn l classId = CategoryID.Unknown := by
  intro l
  induction l with
  | nil => intro _; rfl
  | cons a t ih =>
    intro h
    rw [parseClassIDOn, if_neg]
    · exact ih fun p hp => h p (List.mem_cons_of_mem _ hp)
    · rw [h a (List.mem_cons_self _ _)]
      exact Bool.false_ne_true

/-- Lookup over any iteration order of the range table agrees with the
canonical order: the map-based lookup is deterministic. -/
theorem parseClassIDOn_perm (l : List (CategoryID × categoryRange))
    (hl : l.Perm categoryRanges) (classId : Int) :
    parseClassIDOn l classId = ParseClassID classId := by
  have hsymm : ∀ {x y : CategoryID × categoryRange},
      rangesDisjoint x y → rangesDisjoint y x := fun h => h.symm
  have hpl : l.Pairwise rangesDisjoint :=
    (hl.pairwise_iff hsymm).mpr categoryRanges_pairwise
  by_cases hex : ∃ p ∈ categoryRanges, inRange p.2 classId = true
  · obtain ⟨p, hm, hr⟩ := hex
    rw [parseClassIDOn_owner hpl (hl.mem_iff.mpr hm) hr, ParseClassID,
      parseClassIDOn_owner categoryRanges_pairwise hm hr]
  · push_neg at hex
    have hall : ∀ p ∈ categoryRanges, inRange p.2 classId = false := by
      intro p hp
      exact Bool.not_eq_true _ ▸ (hex p hp)
    rw [parseClassIDOn_unknown fun p hp => hall p (hl.mem_iff.mp hp),
      ParseClassID, parseClassIDOn_unknown hall]

/-- A blob whose self-relative center has a zero coordinate scores zero
against itself: the zero-divisor branch of the guarded division is taken. -/
theorem selfNearness_eq_zero {b : Blob}
    (h : b.Position.Center.x = 0 ∨ b.Position.Center.y = 0) :
    selfNearness b = 0 := by
  rw [selfNearness, BlobPoint.Near]
  rcases h with h | h <;> rw [h] <;> simp

/-- Against a single stored blob with zero self-nearness, `findNearestIndex`
finds nothing (for a non-negative threshold). -/
theorem findNearestIndex_single_zero (e obs : Blob) (thr : ℚ)
    (h0 : selfNearness e = 0) (hthr : 0 ≤ thr) :
    findNearestIndex [e] obs [] thr = -1 := by
  have hcond : ¬ (([] : List Nat).contains 0 = false ∧ thr < selfNearness e ∧
      (0 : ℚ) < selfNearness e) := by
    rw [h0]
    rintro ⟨-, h, -⟩
    exact absurd hthr (not_le.mpr h)
  rw [findNearestIndex, findNearestIndexAux, if_neg hcond, findNearestIndexAux]

/-- Function `refreshConfidence` equals decaying every confidence and then
filtering by the eviction floor. -/
theorem refreshConfidence_eq_map_filter (decayFactor evictionFloor : ℚ)
    (blobs : List Blob) :
    refreshConfidence decayFactor evictionFloor blobs =
      ((blobs.map fun b => { b with Confidence := b.Confidence * decayFactor
        }).filter fun b => decide (evictionFloor < b.Confidence)) := by
  induction blobs with
  | nil => rfl
  | cons b rest ih =>
    rw [refreshConfidence] at ih ⊢
    rw [List.filterMap_cons, List.map_cons, List.filter_cons]
    by_cases hc : evictionFloor < b.Confidence * decayFactor
    · rw [if_pos hc, ih]
      simp [hc]
    · rw [if_neg hc, ih]
      simp [hc]

/-- With `collapseMultiple` enabled, the loop never records a merged index. -/
theorem updateLoop_merged_collapse (cfg : DetectionConfig)
    (hcol : cfg.MemoryCollapseMultiple = true) (obs : List Blob) :
    ∀ st st' : UpdateState, updateLoop cfg st obs = some st' →
      st'.merged = st.merged := by
  induction obs with
  | nil => intro st st' h; cases h; rfl
  | cons blob rest ih =>
    intro st st' h
    rw [updateLoop] at h
    cases h₁ : updateStep cfg st blob with
    | none => rw [h₁] at h; cases h
    | some st₁ =>
      rw [h₁] at h
      rw [ih st₁ st' h]
      rw [updateStep] at h₁
      split at h₁
      · cases h₁; rfl
      · cases hm : mergeAtIndex st.blobs blob
            (findNearestIndex st.blobs blob st.merged
              cfg.MemoryNearnessThreshold).toNat
            cfg.MemoryClassSwitchThreshold with
        | none => rw [hm] at h₁; cases h₁
        | some m =>
          rw [hm] at h₁
          cases h₁
          simp [hcol]

/-- Against a single stored blob already marked merged, `findNearestIndex`
finds nothing. -/
theorem findNearestIndex_single_merged (b o : Blob) (thr : ℚ) :
    findNearestIndex [b] o [0] thr = -1 := by
  have hcond : ¬ (([0] : List Nat).contains 0 = false ∧ thr < selfNearness b ∧
      (0 : ℚ) < selfNearness b) := by
    rintro ⟨hc, -⟩
    simp at hc
  rw [findNearestIndex, findNearestIndexAux, if_neg hcond, findNearestIndexAux]

/-- C9: `findNearestIndex` returns either `-1` or an index that is
non-negative and strictly below the number of stored entities, and `Update`
never performs an out-of-range store access — every merge happens at an
in-range index, so the update always produces a result. -/
theorem claim_c9_store_accesses_in_bounds (blobs obs : List Blob)
    (blob : Blob) (merged : List Nat) (thr : ℚ) (cfg : DetectionConfig) :
    (findNearestIndex blobs blob merged thr = -1 ∨
      (0 ≤ findNearestIndex blobs blob merged thr ∧
        findNearestIndex blobs blob merged thr < (blobs.length : Int))) ∧
    (Update blobs obs cfg).isSome = true := by
  refine ⟨findNearestIndex_bound blobs blob merged thr, ?_⟩
  obtain ⟨res, h⟩ := update_some blobs obs cfg
  rw [h]
  rfl

/-- C2 (amended): provided every incoming observation's confidence is
strictly above the eviction floor, every entity remaining in the store at the
end of an `Update` call has confidence strictly above the floor. -/
theorem claim_c2_confidence_floor_invariant (blobs obs : List Blob)
    (cfg : DetectionConfig)
    (hobs : ∀ o ∈ obs, cfg.MemoryMinConfidence < o.Confidence)
    (res : List Blob × Bool) (h : Update blobs obs cfg = some res) :
    ∀ b ∈ res.1, cfg.MemoryMinConfidence < b.Confidence := by
  rw [Update] at h
  cases hl : updateLoop cfg
      ⟨refreshConfidence cfg.MemoryDecayFactor cfg.MemoryMinConfidence blobs,
       [], false⟩ obs with
  | none => rw [hl] at h; cases h
  | some st' =>
    rw [hl] at h
    cases h
    exact updateLoop_conf cfg obs hobs _ st'
      (fun b hb => refreshConfidence_mem _ _ _ b hb) hl

unseal Rat.mul Rat.inv Rat.add in
/-- Witness for C2: a batch whose single observation is above the floor
leaves only above-floor entities. -/
theorem claim_c2_confidence_floor_invariant_witness :
    (∀ o ∈ [obsCycle1], defaultConfig.MemoryMinConfidence < o.Confidence) ∧
    (∀ b ∈ [obsCycle1], defaultConfig.MemoryMinConfidence < b.Confidence) :=
  ⟨by decide,
   claim_c2_confidence_floor_invariant [] [obsCycle1] defaultConfig
     (by decide) ([obsCycle1], true) (by decide)⟩

unseal Rat.mul Rat.inv Rat.add in
/-- Counterexample for C2 as stated: an observation with confidence `0.1`
(below the default floor `0.5`) is appended unchecked, so after the call the
store holds an entity at or below the floor. -/
theorem claim_c2_counterexample :
    Update [] [obsLowConfidence] defaultConfig =
      some ([obsLowConfidence], true) ∧
    ¬ (∀ b ∈ [obsLowConfidence],
        defaultConfig.MemoryMinConfidence < b.Confidence) := by
  exact ⟨by decide, by decide⟩

/-- C3: `Update` returns `true` iff along the run some observation was
appended as a new entity or some merge overwrote the matched entity's
category with a different value (the per-step event flags of `eventTrace`);
moreover a single observation fed into an empty store yields exactly that
entity, unchanged, with result `true`. -/
theorem claim_c3_changed_iff_append_or_category_switch (blobs obs : List Blob)
    (cfg : DetectionConfig) (res : List Blob × Bool)
    (h : Update blobs obs cfg = some res) (o : Blob) :
    (res.2 = true ↔
      (eventTrace cfg
        ⟨refreshConfidence cfg.MemoryDecayFactor cfg.MemoryMinConfidence blobs,
         [], false⟩ obs).any id = true) ∧
    Update [] [o] cfg = some ([o], true) := by
  constructor
  · rw [Update] at h
    cases hl : updateLoop cfg
        ⟨refreshConfidence cfg.MemoryDecayFactor cfg.MemoryMinConfidence blobs,
         [], false⟩ obs with
    | none => rw [hl] at h; cases h
    | some st' =>
      rw [hl] at h
      cases h
      rw [updateLoop_changed cfg obs _ st' hl]
      simp
  · rfl

unseal Rat.mul Rat.inv Rat.add in
/-- Witness for C3 at a concrete run: one observation into an empty store is
an append event, and the flag is `true`. -/
theorem claim_c3_changed_iff_append_or_category_switch_witness :
    ((([obsCycle1], true) : List Blob × Bool).2 = true ↔
      (eventTrace defaultConfig
        ⟨refreshConfidence defaultConfig.MemoryDecayFactor
          defaultConfig.MemoryMinConfidence [], [], false⟩
        [obsCycle1]).any id = true) ∧
    Update [] [obsCycle2] defaultConfig = some ([obsCycle2], true) :=
  claim_c3_changed_iff_append_or_category_switch [] [obsCycle1] defaultConfig
    ([obsCycle1], true) (by decide) obsCycle2

/-- C4: `Update` applies decay-and-evict to the store before any observation
is associated; the decay multiplies every confidence by the factor and evicts
at or below the floor; an empty batch leaves exactly the decayed store; and
an entity whose confidence equals floor divided by decay factor is gone after
one observation-free call. -/
theorem claim_c4_decay_then_evict (blobs obs : List Blob)
    (cfg : DetectionConfig) (cat : CategoryID) (pos : BlobPosition)
    (hd : cfg.MemoryDecayFactor ≠ 0) :
    (Update blobs obs cfg =
      (updateLoop cfg
        ⟨refreshConfidence cfg.MemoryDecayFactor cfg.MemoryMinConfidence blobs,
         [], false⟩ obs).map fun st => (st.blobs, st.changed)) ∧
    (refreshConfidence cfg.MemoryDecayFactor cfg.MemoryMinConfidence blobs =
      ((blobs.map fun b =>
        { b with Confidence := b.Confidence * cfg.MemoryDecayFactor }).filter
          fun b => decide (cfg.MemoryMinConfidence < b.Confidence))) ∧
    (Update blobs [] cfg =
      some (refreshConfidence cfg.MemoryDecayFactor cfg.MemoryMinConfidence
        blobs, false)) ∧
    Update [⟨cat, cfg.MemoryMinConfidence / cfg.MemoryDecayFactor, pos⟩] []
      cfg = some ([], false) := by
  have hempty : ∀ bs : List Blob, Update bs [] cfg =
      some (refreshConfidence cfg.MemoryDecayFactor cfg.MemoryMinConfidence
        bs, false) := fun bs => rfl
  refine ⟨?_, refreshConfidence_eq_map_filter _ _ _, hempty blobs, ?_⟩
  · rw [Update]
    cases hl : updateLoop cfg
        ⟨refreshConfidence cfg.MemoryDecayFactor cfg.MemoryMinConfidence blobs,
         [], false⟩ obs <;> simp
  · rw [hempty]
    have hrc : refreshConfidence cfg.MemoryDecayFactor
        cfg.MemoryMinConfidence
        [⟨cat, cfg.MemoryMinConfidence / cfg.MemoryDecayFactor, pos⟩] = [] := by
      rw [refreshConfidence]
      simp [div_mul_cancel₀ _ hd]
    rw [hrc]

unseal Rat.mul Rat.inv Rat.add in
/-- Witness for C4: with the default configuration, an entity at confidence
`0.5 / 0.98` is evicted by a single observation-free update. -/
theorem claim_c4_decay_then_evict_witness :
    Update [⟨CategoryID.Human,
      defaultConfig.MemoryMinConfidence / defaultConfig.MemoryDecayFactor,
      ⟨0, 0, 10, 10⟩⟩] [] defaultConfig = some ([], false) :=
  (claim_c4_decay_then_evict [] [] defaultConfig CategoryID.Human
    ⟨0, 0, 10, 10⟩ (by decide)).2.2.2

/-- C5: a merge overrides confidence and category exactly when the incoming
confidence reaches the stored confidence plus the class-switch threshold
(boundary inclusive), leaves both unchanged below the boundary, and always
replaces each box coordinate by the truncating average of old and new. -/
theorem claim_c5_merge_override_boundary_and_average (blobs : List Blob)
    (blob : Blob) (i : Nat) (thr : ℚ) (cur : Blob) (res : List Blob)
    (ch : Bool) (hget : blobs[i]? = some cur)
    (h : mergeAtIndex blobs blob i thr = some (res, ch)) :
    ∃ nb : Blob, res = blobs.set i nb ∧
      (cur.Confidence + thr ≤ blob.Confidence →
        nb.Category = blob.Category ∧ nb.Confidence = blob.Confidence) ∧
      (blob.Confidence < cur.Confidence + thr →
        nb.Category = cur.Category ∧ nb.Confidence = cur.Confidence) ∧
      nb.Position.Left = (cur.Position.Left + blob.Position.Left).tdiv 2 ∧
      nb.Position.Top = (cur.Position.Top + blob.Position.Top).tdiv 2 ∧
      nb.Position.Right = (cur.Position.Right + blob.Position.Right).tdiv 2 ∧
      nb.Position.Bottom =
        (cur.Position.Bottom + blob.Position.Bottom).tdiv 2 ∧
      (ch = true ↔
        (cur.Confidence + thr ≤ blob.Confidence ∧
          cur.Category ≠ blob.Category)) := by
  simp only [mergeAtIndex, hget, Option.some.injEq, Prod.mk.injEq] at h
  obtain ⟨rfl, rfl⟩ := h
  refine ⟨(mergeBlob cur blob thr).1, rfl, ?_, ?_, ?_, ?_, ?_, ?_, ?_⟩
  · intro hov
    simp [mergeBlob, hov]
  · intro hlt
    simp [mergeBlob, not_le.mpr hlt]
  · simp [mergeBlob]
  · simp [mergeBlob]
  · simp [mergeBlob]
  · simp [mergeBlob]
  · simp [mergeBlob]

unseal Rat.mul Rat.inv Rat.add in
/-- Witness for C5 at a concrete merge: confidence `0.8` against stored
`0.9` plus threshold `0.15` does not override, and coordinates average. -/
theorem claim_c5_merge_override_boundary_and_average_witness :
    ∃ nb : Blob,
      [⟨CategoryID.Human, 9/10, ⟨0, 0, 505, 505⟩⟩] = [entitySmall].set 0 nb ∧
      (entitySmall.Confidence + 3/20 ≤ obsFar.Confidence →
        nb.Category = obsFar.Category ∧ nb.Confidence = obsFar.Confidence) ∧
      (obsFar.Confidence < entitySmall.Confidence + 3/20 →
        nb.Category = entitySmall.Category ∧
          nb.Confidence = entitySmall.Confidence) ∧
      nb.Position.Left =
        (entitySmall.Position.Left + obsFar.Position.Left).tdiv 2 ∧
      nb.Position.Top =
        (entitySmall.Position.Top + obsFar.Position.Top).tdiv 2 ∧
      nb.Position.Right =
        (entitySmall.Position.Right + obsFar.Position.Right).tdiv 2 ∧
      nb.Position.Bottom =
        (entitySmall.Position.Bottom + obsFar.Position.Bottom).tdiv 2 ∧
      (false = true ↔
        (entitySmall.Confidence + 3/20 ≤ obsFar.Confidence ∧
          entitySmall.Category ≠ obsFar.Category)) :=
  claim_c5_merge_override_boundary_and_average [entitySmall] obsFar 0 (3/20)
    entitySmall [⟨CategoryID.Human, 9/10, ⟨0, 0, 505, 505⟩⟩] false
    (by decide) (by decide)

unseal Rat.mul Rat.inv Rat.add in
/-- C7: the end-to-end default-configuration scenario: the first cycle stores
the observation verbatim and reports a change; the second cycle leaves one
entity with the decayed confidence `0.784` and the averaged box
`(2,2,102,102)`, reports no change, and the override did not fire because
`0.82 < 0.784 + 0.15`. -/
theorem claim_c7_end_to_end_default_config :
    Update [] [obsCycle1] defaultConfig = some ([obsCycle1], true) ∧
    Update [obsCycle1] [obsCycle2] defaultConfig =
      some ([entityAfterCycle2], false) ∧
    obsCycle2.Confidence <
      entityAfterCycle2.Confidence + defaultConfig.MemoryClassSwitchThreshold :=
  ⟨by decide, by decide, by decide⟩

unseal Rat.mul Rat.inv Rat.add in
/-- C1, behaviour of the code at the failing input: per the claim's own
scoring, the only candidate's nearness to the far observation is `0.0001`,
below the threshold, and the spec-modelled association finds no candidate;
but the shadowed loop in `findNearestIndex` scores the candidate against
itself, returns index `0`, and `Update` merges instead of appending — one
entity remains and `changed` is `false`. -/
theorem claim_c1_association_ignores_observation :
    BlobPoint.Near obsFar.Position.Center entitySmallDecayed.Position.Center ≤
      defaultConfig.MemoryNearnessThreshold ∧
    findNearestIndexSpec [entitySmallDecayed] obsFar []
      defaultConfig.MemoryNearnessThreshold = -1 ∧
    findNearestIndex [entitySmallDecayed] obsFar []
      defaultConfig.MemoryNearnessThreshold = 0 ∧
    Update [entitySmall] [obsFar] defaultConfig =
      some ([⟨CategoryID.Human, 441/500, ⟨0, 0, 505, 505⟩⟩], false) :=
  ⟨by decide, by decide, by decide, by decide⟩

/-- A successful loop iteration advances `updateLoop` by one observation. -/
theorem updateLoop_cons_some {cfg : DetectionConfig} {st st₁ : UpdateState}
    {b : Blob} (rest : List Blob) (h : updateStep cfg st b = some st₁) :
    updateLoop cfg st (b :: rest) = updateLoop cfg st₁ rest := by
  rw [updateLoop, h]

/-- C6: if two observations both match a sole stored entity, then with
`collapseMultiple` disabled only the first merges (the index is marked
merged) and the second is appended as a new entity, while with
`collapseMultiple` enabled both merge sequentially, each averaging the
position again, and no merged marking is ever recorded. -/
theorem claim_c6_collapse_multiple_semantics (cfg : DetectionConfig)
    (e o1 o2 : Blob) :
    (cfg.MemoryCollapseMultiple = false →
      findNearestIndex [e] o1 [] cfg.MemoryNearnessThreshold = 0 →
      updateLoop cfg ⟨[e], [], false⟩ [o1, o2] =
        some ⟨[(mergeBlob e o1 cfg.MemoryClassSwitchThreshold).1, o2], [0],
          true⟩) ∧
    (cfg.MemoryCollapseMultiple = true →
      findNearestIndex [e] o1 [] cfg.MemoryNearnessThreshold = 0 →
      findNearestIndex [(mergeBlob e o1 cfg.MemoryClassSwitchThreshold).1] o2
        [] cfg.MemoryNearnessThreshold = 0 →
      updateLoop cfg ⟨[e], [], false⟩ [o1, o2] =
        some ⟨[(mergeBlob (mergeBlob e o1 cfg.MemoryClassSwitchThreshold).1 o2
            cfg.MemoryClassSwitchThreshold).1], [],
          (mergeBlob e o1 cfg.MemoryClassSwitchThreshold).2 ||
            (mergeBlob (mergeBlob e o1 cfg.MemoryClassSwitchThreshold).1 o2
              cfg.MemoryClassSwitchThreshold).2⟩) ∧
    (∀ (st st' : UpdateState) (obs : List Blob),
      cfg.MemoryCollapseMultiple = true → updateLoop cfg st obs = some st' →
      st'.merged = st.merged) := by
  refine ⟨?_, ?_, fun st st' obs hcol h =>
    updateLoop_merged_collapse cfg hcol obs st st' h⟩
  · intro hcol h1
    have hs1 : updateStep cfg ⟨[e], [], false⟩ o1 =
        some ⟨[(mergeBlob e o1 cfg.MemoryClassSwitchThreshold).1], [0],
          (mergeBlob e o1 cfg.MemoryClassSwitchThreshold).2⟩ := by
      simp [updateStep, h1, mergeAtIndex, hcol]
    have hs2 : updateStep cfg
        ⟨[(mergeBlob e o1 cfg.MemoryClassSwitchThreshold).1], [0],
          (mergeBlob e o1 cfg.MemoryClassSwitchThreshold).2⟩ o2 =
        some ⟨[(mergeBlob e o1 cfg.MemoryClassSwitchThreshold).1, o2], [0],
          true⟩ := by
      simp [updateStep, findNearestIndex_single_merged]
    rw [updateLoop_cons_some _ hs1, updateLoop_cons_some _ hs2, updateLoop]
  · intro hcol h1 h2
    have hs1 : updateStep cfg ⟨[e], [], false⟩ o1 =
        some ⟨[(mergeBlob e o1 cfg.MemoryClassSwitchThreshold).1], [],
          (mergeBlob e o1 cfg.MemoryClassSwitchThreshold).2⟩ := by
      simp [updateStep, h1, mergeAtIndex, hcol]
    have hs2 : updateStep cfg
        ⟨[(mergeBlob e o1 cfg.MemoryClassSwitchThreshold).1], [],
          (mergeBlob e o1 cfg.MemoryClassSwitchThreshold).2⟩ o2 =
        some ⟨[(mergeBlob (mergeBlob e o1 cfg.MemoryClassSwitchThreshold).1 o2
            cfg.MemoryClassSwitchThreshold).1], [],
          (mergeBlob e o1 cfg.MemoryClassSwitchThreshold).2 ||
            (mergeBlob (mergeBlob e o1 cfg.MemoryClassSwitchThreshold).1 o2
              cfg.MemoryClassSwitchThreshold).2⟩ := by
      simp [updateStep, h2, mergeAtIndex, hcol]
    rw [updateLoop_cons_some _ hs1, updateLoop_cons_some _ hs2, updateLoop]

unseal Rat.mul Rat.inv Rat.add in
/-- Witness for C6: both observations match the sole entity; with collapsing
disabled the second starts a new entity, with collapsing enabled both merge. -/
theorem claim_c6_collapse_multiple_semantics_witness :
    updateLoop configNoCollapse ⟨[obsCycle1], [], false⟩
      [obsCycle2, obsCycle2] =
      some ⟨[(mergeBlob obsCycle1 obsCycle2
        configNoCollapse.MemoryClassSwitchThreshold).1, obsCycle2], [0],
        true⟩ ∧
    updateLoop defaultConfig ⟨[obsCycle1], [], false⟩ [obsCycle2, obsCycle2] =
      some ⟨[(mergeBlob (mergeBlob obsCycle1 obsCycle2
          defaultConfig.MemoryClassSwitchThreshold).1 obsCycle2
          defaultConfig.MemoryClassSwitchThreshold).1], [],
        (mergeBlob obsCycle1 obsCycle2
          defaultConfig.MemoryClassSwitchThreshold).2 ||
          (mergeBlob (mergeBlob obsCycle1 obsCycle2
            defaultConfig.MemoryClassSwitchThreshold).1 obsCycle2
            defaultConfig.MemoryClassSwitchThreshold).2⟩ :=
  ⟨(claim_c6_collapse_multiple_semantics configNoCollapse obsCycle1 obsCycle2
      obsCycle2).1 (by decide) (by decide),
   (claim_c6_collapse_multiple_semantics defaultConfig obsCycle1 obsCycle2
      obsCycle2).2.1 (by decide) (by decide) (by decide)⟩

/-- C8: `ParseClassID` is a total function on the integers that is
deterministic despite the map iteration (every iteration order of the range
table gives the same answer), returns the unique owning category of any range
containing the id, and `Unknown` when no range contains it. -/
theorem claim_c8_parse_class_id_total_deterministic (classId : Int)
    (l : List (CategoryID × categoryRange))
    (p q : CategoryID × categoryRange) :
    (l.Perm categoryRanges →
      parseClassIDOn l classId = ParseClassID classId) ∧
    (p ∈ categoryRanges → q ∈ categoryRanges → inRange p.2 classId = true →
      inRange q.2 classId = true → p = q) ∧
    (p ∈ categoryRanges → inRange p.2 classId = true →
      ParseClassID classId = p.1) ∧
    ((∀ r ∈ categoryRanges, inRange r.2 classId = false) →
      ParseClassID classId = CategoryID.Unknown) :=
  ⟨fun hl => parseClassIDOn_perm l hl classId,
   fun hp hq h1 h2 => ranges_mem_unique categoryRanges_pairwise hp hq h1 h2,
   fun hp h1 => parseClassIDOn_owner categoryRanges_pairwise hp h1,
   fun hall => parseClassIDOn_unknown hall⟩

/-- Witness for C8: id `17` resolves to `Animal` under the reversed iteration
order as well, and id `92` lies outside every range and yields `Unknown`. -/
theorem claim_c8_parse_class_id_total_deterministic_witness :
    parseClassIDOn categoryRanges.reverse 17 = ParseClassID 17 ∧
    ((CategoryID.Animal, (⟨16, 25⟩ : categoryRange)) =
      (CategoryID.Animal, (⟨16, 25⟩ : categoryRange))) ∧
    ParseClassID 17 = CategoryID.Animal ∧
    ParseClassID 92 = CategoryID.Unknown :=
  ⟨(claim_c8_parse_class_id_total_deterministic 17 categoryRanges.reverse
      (CategoryID.Animal, ⟨16, 25⟩) (CategoryID.Animal, ⟨16, 25⟩)).1
      (categoryRanges.reverse_perm),
   (claim_c8_parse_class_id_total_deterministic 17 categoryRanges
      (CategoryID.Animal, ⟨16, 25⟩) (CategoryID.Animal, ⟨16, 25⟩)).2.1
      (by decide) (by decide) (by decide) (by decide),
   (claim_c8_parse_class_id_total_deterministic 17 categoryRanges
      (CategoryID.Animal, ⟨16, 25⟩) (CategoryID.Animal, ⟨16, 25⟩)).2.2.1
      (by decide) (by decide),
   (claim_c8_parse_class_id_total_deterministic 92 categoryRanges
      (CategoryID.Animal, ⟨16, 25⟩) (CategoryID.Animal, ⟨16, 25⟩)).2.2.2
      (by decide)⟩

/-- Updating a store holding a single zero-self-nearness entity appends the
observation instead of merging it. -/
theorem update_single_degenerate (cfg : DetectionConfig) (e obs : Blob)
    (hz : selfNearness e = 0) (hthr : 0 ≤ cfg.MemoryNearnessThreshold) :
    Update [e] [obs] cfg =
      some (refreshConfidence cfg.MemoryDecayFactor cfg.MemoryMinConfidence
        [e] ++ [obs], true) := by
  by_cases hc : cfg.MemoryMinConfidence < e.Confidence * cfg.MemoryDecayFactor
  · have hrs : refreshConfidence cfg.MemoryDecayFactor
        cfg.MemoryMinConfidence [e] =
        [{ e with Confidence := e.Confidence * cfg.MemoryDecayFactor }] := by
      simp [refreshConfidence, hc]
    have hz' : selfNearness
        { e with Confidence := e.Confidence * cfg.MemoryDecayFactor } = 0 := hz
    have hfn := findNearestIndex_single_zero
      { e with Confidence := e.Confidence * cfg.MemoryDecayFactor } obs
      cfg.MemoryNearnessThreshold hz' hthr
    rw [Update, hrs]
    simp [updateLoop, updateStep, hfn]
  · have hrs : refreshConfidence cfg.MemoryDecayFactor
        cfg.MemoryMinConfidence [e] = [] := by
      simp [refreshConfidence, hc]
    rw [Update, hrs]
    simp [updateLoop, updateStep, findNearestIndex, findNearestIndexAux]

/-- C10: the nearness score divides by the larger coordinate without a zero
guard; a box of width (resp. height) at most one has self-relative center
x-coordinate (resp. y-coordinate) zero; such a degenerate stored entity's
score is never above a non-negative threshold, so `findNearestIndex` never
returns its index, and an observation arriving at a store holding only that
entity is appended as a new entity instead of merging. -/
theorem claim_c10_degenerate_entity_never_matches (pos : BlobPosition)
    (blobs : List Blob) (nb e obs : Blob) (merged : List Nat) (thr : ℚ)
    (i : Nat) (cfg : DetectionConfig) :
    (0 ≤ pos.Right - pos.Left → pos.Right - pos.Left ≤ 1 →
      pos.Center.x = 0) ∧
    (0 ≤ pos.Bottom - pos.Top → pos.Bottom - pos.Top ≤ 1 →
      pos.Center.y = 0) ∧
    (0 ≤ thr → blobs[i]? = some e →
      e.Position.Center.x = 0 ∨ e.Position.Center.y = 0 →
      findNearestIndex blobs nb merged thr ≠ (i : Int)) ∧
    (0 ≤ cfg.MemoryNearnessThreshold →
      e.Position.Center.x = 0 ∨ e.Position.Center.y = 0 →
      Update [e] [obs] cfg =
        some (refreshConfidence cfg.MemoryDecayFactor cfg.MemoryMinConfidence
          [e] ++ [obs], true)) := by
  refine ⟨?_, ?_, ?_, ?_⟩
  · intro h0 h1
    rw [BlobPosition.Center]
    have h : pos.Right - pos.Left = 0 ∨ pos.Right - pos.Left = 1 := by omega
    rcases h with h | h <;> rw [h] <;> rfl
  · intro h0 h1
    rw [BlobPosition.Center]
    have h : pos.Bottom - pos.Top = 0 ∨ pos.Bottom - pos.Top = 1 := by omega
    rcases h with h | h <;> rw [h] <;> rfl
  · intro hthr hget hdeg heq
    rcases findNearestIndex_cases blobs nb merged thr with hm | ⟨j, b, hj, he, hb⟩
    · rw [hm] at heq
      omega
    · rw [he] at heq
      have hji : j = i := by exact_mod_cast heq
      subst hji
      rw [hget] at hj
      obtain rfl : e = b := Option.some.inj hj
      rw [selfNearness_eq_zero hdeg] at hb
      exact absurd hb (not_lt.mpr hthr)
  · intro hthr hdeg
    exact update_single_degenerate cfg e obs (selfNearness_eq_zero hdeg) hthr

unseal Rat.mul Rat.inv Rat.add in
/-- Witness for C10: the thin box `(0,0,1,100)` has center `(0,50)`; the
stored thin entity is never matched and the far observation is appended. -/
theorem claim_c10_degenerate_entity_never_matches_witness :
    ((⟨0, 0, 1, 1⟩ : BlobPosition).Center.x = 0 ∧
      (⟨0, 0, 1, 1⟩ : BlobPosition).Center.y = 0) ∧
    findNearestIndex [entityThin] obsFar [] (13/20) ≠ (0 : Int) ∧
    Update [entityThin] [obsFar] defaultConfig =
      some (refreshConfidence defaultConfig.MemoryDecayFactor
        defaultConfig.MemoryMinConfidence [entityThin] ++ [obsFar], true) := by
  have h := claim_c10_degenerate_entity_never_matches ⟨0, 0, 1, 1⟩
    [entityThin] obsFar entityThin obsFar [] (13/20) 0 defaultConfig
  exact ⟨⟨h.1 (by decide) (by decide), h.2.1 (by decide) (by decide)⟩,
    h.2.2.1 (by decide) (by decide) (Or.inl (by decide)),
    h.2.2.2 (by decide) (Or.inl (by decide))⟩

end HomeSecurity
